import Mathlib

/-!
Shallow embedding of the edge poll/tunnel orchestrator of
`src/edge/poll.go` (package `edge` of the portainer agent).

Modelling conventions:
* Go `float64` values (`pollIntervalInSeconds`, `CheckinInterval`) are
  modelled as rationals; the source only compares them and converts them to
  `time.Duration`, so no rounding behaviour is lost.
* Go `time.Duration` values and `time.Time` instants are modelled as `Int`
  nanosecond counts; `0` is the `time.Time` zero value (`IsZero`).
* External collaborators (the Portainer client, the chisel tunnel client,
  base64 decoding, `libcrypto.Decrypt`, the scheduler, the stack manager and
  the logs manager) are consumed through oracles: the outcome each call would
  return during one iteration is a field of an environment record, and every
  call the orchestrator makes is recorded as an `Effect` in an effect trace.
* Goroutine launches (`go ...`) are recorded as effects; one iteration of
  each loop body is modelled as a step function.
-/

namespace PortainerEdge

/-- A schedule entry of an `EnvironmentStatus` response: only the fields the
poll core reads (`schedule.ID`, `schedule.CollectLogs` at
src/edge/poll.go:229-232). -/
structure Schedule where
  id : Int
  collectLogs : Bool
deriving DecidableEq

/-- A stack entry of an `EnvironmentStatus` response: `stack.ID` and
`stack.Version` (src/edge/poll.go:246-247). -/
structure StackStatus where
  id : Int
  version : Int
deriving DecidableEq

/-- Response of `portainerClient.GetEnvironmentStatus()` as read by `poll`
(src/edge/poll.go:195-255). `stacks := none` models a nil slice, which Go
distinguishes from an empty one for the `responseData.Stacks != nil` test. -/
structure EnvironmentStatus where
  status : String
  port : Int
  credentials : String
  checkinInterval : ℚ
  schedules : List Schedule
  «stacks» : Option (List StackStatus)
deriving DecidableEq

/-- Observable state of the chisel reverse-tunnel client: what
`IsTunnelOpen` reports. -/
structure TunnelState where
  isOpen : Bool
deriving DecidableEq

/-- The `agent.TunnelConfig` built by `createTunnel`
(src/edge/poll.go:275-281). -/
structure TunnelConfig where
  serverAddr : String
  serverFingerprint : String
  credentials : String
  remotePort : String
  localAddr : String
deriving DecidableEq

/-- State of a `PollService` (src/edge/poll.go:22-38). Collaborator handles
(`portainerClient`, `scheduleManager`, `edgeStackManager`, `logsManager`) are
pure interfaces and are modelled by oracles instead of fields;
`tunnelClient` keeps its nil/non-nil distinction plus the open/closed state
it reports; `refreshSignal` keeps the nil/non-nil distinction of the
channel. -/
structure PollService where
  apiServerAddr : String
  pollIntervalInSeconds : ℚ
  inactivityTimeout : Int
  edgeID : String
  tunnelClient : Option TunnelState
  lastActivity : Int
  refreshSignal : Bool
  portainerURL : String
  endpointID : String
  tunnelServerAddr : String
  tunnelServerFingerprint : String
deriving DecidableEq

/-- A call the orchestrator makes on a collaborator during one iteration,
in program order. -/
inductive Effect where
  | closeTunnel : Effect
  | createTunnel : TunnelConfig → Effect
  | schedule : List Schedule → Effect
  | handleLogs : List Int → Effect
  | setTimeout : Int → Effect
  | restartAsync : Effect
  | updateStacks : List (Int × Int) → Effect
deriving DecidableEq

/-- Outcomes the external collaborators would return to one `poll` iteration:
`GetEnvironmentStatus`, `CloseTunnel`, `base64.RawStdEncoding.DecodeString`,
`libcrypto.Decrypt`, `CreateTunnel`, `Schedule`, `UpdateStacksStatus`, and
the instant `time.Now()` would report. -/
structure PollEnv where
  fetchResult : Except String EnvironmentStatus
  closeResult : Except String Unit
  decodeResult : Except String (List Nat)
  decryptResult : Except String String
  createResult : Except String Unit
  scheduleResult : Except String Unit
  updateStacksResult : Except String Unit
  now : Int

/-- Result of one modelled step: the updated service state, the trace of
collaborator calls, and the Go return value (`error`). -/
structure StepOut where
  state : PollService
  effects : List Effect
  result : Except String Unit

/-- What `service.tunnelClient != nil && service.tunnelClient.IsTunnelOpen()`
reads. -/
def tunnelReportsOpen (service : PollService) : Bool :=
  match service.tunnelClient with
  | some t => t.isOpen
  | none => false

/-- Translation of `PollService.resetActivityTimer` (src/edge/poll.go:91-95):
`lastActivity` becomes the current instant only when the tunnel client is
non-nil and reports the tunnel open. -/
def resetActivityTimer (service : PollService) (now : Int) : PollService :=
  if tunnelReportsOpen service then { service with lastActivity := now }
  else service

/-- Go conversion of a float64 seconds count into a `time.Duration`,
`time.Duration(f) * time.Second` (src/edge/poll.go:131 and :240): the float
is truncated toward zero to an integer, then scaled by `time.Second` = 10^9
nanoseconds. -/
def goSecondsDuration (q : ℚ) : Int :=
  Int.tdiv q.num (q.den : Int) * 1000000000

/-- Period, in nanoseconds, of the ticker created by `startStatusPollLoop`
(src/edge/poll.go:131):
`time.NewTicker(time.Duration(service.pollIntervalInSeconds) * time.Second)`. -/
def tickerPeriodNs (service : PollService) : Int :=
  goSecondsDuration service.pollIntervalInSeconds

/-- The float64 value of `Duration.Seconds()`: the nanosecond count divided
by 10^9 (src/edge/poll.go:174 compares two such values). -/
def durationSeconds (n : Int) : ℚ :=
  (n : ℚ) / 1000000000

/-- Translation of `PollService.createTunnel` (src/edge/poll.go:260-290).
The decode, decrypt and `CreateTunnel` outcomes come from the oracle; the
credential argument is the raw response field (src/edge/poll.go:215).
Modelled from the spec: the chisel tunnel client implementation is not under
src, so per spec §4.4 a successful `CreateTunnel` leaves the tunnel
reporting open (the only closed→open transition) and a failed stage leaves
it as it was. -/
def createTunnel (service : PollService) (env : PollEnv)
    (_encodedCredentials : String) (remotePort : Int) : StepOut :=
  match service.tunnelClient with
  | none => ⟨service, [], .ok ()⟩
  | some _ =>
    match env.decodeResult with
    | .error e => ⟨service, [], .error e⟩
    | .ok _ =>
      match env.decryptResult with
      | .error e => ⟨service, [], .error e⟩
      | .ok credentials =>
        let tunnelConfig : TunnelConfig :=
          { serverAddr := service.tunnelServerAddr
            serverFingerprint := service.tunnelServerFingerprint
            credentials := credentials
            remotePort := toString remotePort
            localAddr := service.apiServerAddr }
        match env.createResult with
        | .error e => ⟨service, [Effect.createTunnel tunnelConfig], .error e⟩
        | .ok _ =>
          ⟨resetActivityTimer
              { service with tunnelClient := some ⟨true⟩ } env.now,
            [Effect.createTunnel tunnelConfig], .ok ()⟩

/-- Go map assignment `m[k] = v` on an association-list model of
`map[int]int`: replace the binding of `k` if present, else add it. -/
def mapSet : List (Int × Int) → Int → Int → List (Int × Int)
  | [], k, v => [(k, v)]
  | p :: rest, k, v =>
    if p.1 = k then (k, v) :: rest else p :: mapSet rest k v

/-- Go map read `m[k]` on the association-list model. -/
def lookupKey : List (Int × Int) → Int → Option Int
  | [], _ => none
  | p :: rest, k => if p.1 = k then some p.2 else lookupKey rest k

/-- Number of bindings of key `k` held by the association-list model. -/
def countKey (m : List (Int × Int)) (k : Int) : Nat :=
  (m.filter fun p => p.1 == k).length

/-- The `stacks` map built by `poll` (src/edge/poll.go:245-248): start from
an empty map and run `stacks[stack.ID] = stack.Version` over the response
list in order. -/
def stacksMap (stackList : List StackStatus) : List (Int × Int) :=
  stackList.foldl (fun m s => mapSet m s.id s.version) []

/-- Version of the last entry of `stackList` whose id is `k` (what a Go map
holds for `k` after the build loop of src/edge/poll.go:246-248). -/
def lastVersion : List StackStatus → Int → Option Int
  | [], _ => none
  | s :: rest, k =>
    match lastVersion rest k with
    | some v => some v
    | none => if s.id = k then some s.version else none

/-- IDLE branch of the tunnel reconciliation (src/edge/poll.go:203-210):
close the tunnel when the response is IDLE and the tunnel reports open; a
close failure is only logged (modelled from the spec, a failed close leaves
the tunnel open so the next IDLE tick retries). -/
def idleClose (service : PollService) (t : TunnelState)
    (resp : EnvironmentStatus) (env : PollEnv) :
    PollService × List Effect :=
  if resp.status = "IDLE" ∧ t.isOpen then
    match env.closeResult with
    | .ok _ => ({ service with tunnelClient := some ⟨false⟩ },
        [Effect.closeTunnel])
    | .error _ => (service, [Effect.closeTunnel])
  else (service, [])

/-- Tunnel-state reconciliation prefix of `poll` (src/edge/poll.go:202-221):
skipped entirely when the tunnel client is nil; closes on IDLE when open,
then creates on REQUIRED when closed, propagating any creation error. -/
def tunnelPhase (service : PollService) (resp : EnvironmentStatus)
    (env : PollEnv) : StepOut :=
  match service.tunnelClient with
  | none => ⟨service, [], .ok ()⟩
  | some t =>
    let afterIdle := idleClose service t resp env
    if resp.status = "REQUIRED" ∧ ¬ tunnelReportsOpen afterIdle.1 then
      let created := createTunnel afterIdle.1 env resp.credentials resp.port
      ⟨created.state, afterIdle.2 ++ created.effects, created.result⟩
    else ⟨afterIdle.1, afterIdle.2, .ok ()⟩

/-- Translation of `PollService.poll` (src/edge/poll.go:194-258), one full
iteration: fetch, tunnel reconciliation, schedule convergence (failure only
logged), log-collection selection, cadence adaptation (update the interval,
`SetTimeout` on the client, `go restartStatusPollLoop()`), stack convergence
(failure propagated). -/
def poll (service : PollService) (env : PollEnv) : StepOut :=
  match env.fetchResult with
  | .error e => ⟨service, [], .error e⟩
  | .ok responseData =>
    let tunnelOut := tunnelPhase service responseData env
    match tunnelOut.result with
    | .error e => ⟨tunnelOut.state, tunnelOut.effects, .error e⟩
    | .ok _ =>
      let s1 := tunnelOut.state
      let es1 := tunnelOut.effects ++ [Effect.schedule responseData.schedules]
      let logsToCollect :=
        (responseData.schedules.filter fun s => s.collectLogs).map
          fun s => s.id
      let es2 := es1 ++ [Effect.handleLogs logsToCollect]
      let cadence : PollService × List Effect :=
        if responseData.checkinInterval > 0 ∧
            responseData.checkinInterval ≠ s1.pollIntervalInSeconds then
          ({ s1 with pollIntervalInSeconds := responseData.checkinInterval },
            es2 ++ [Effect.setTimeout (goSecondsDuration
                responseData.checkinInterval),
              Effect.restartAsync])
        else (s1, es2)
      match responseData.«stacks» with
      | none => ⟨cadence.1, cadence.2, .ok ()⟩
      | some stackList =>
        let builtStacks := stacksMap stackList
        let es3 := cadence.2 ++ [Effect.updateStacks builtStacks]
        match env.updateStacksResult with
        | .error e => ⟨cadence.1, es3, .error e⟩
        | .ok _ => ⟨cadence.1, es3, .ok ()⟩

/-- First error produced by the tunnel-creation stages in their source order
(decode, then decrypt, then the capability's create call); `none` when all
three would succeed. -/
def createFailure (env : PollEnv) : Option String :=
  match env.decodeResult with
  | .error e => some e
  | .ok _ =>
    match env.decryptResult with
    | .error e => some e
    | .ok _ =>
      match env.createResult with
      | .error e => some e
      | .ok _ => none

/-- Signals a select round of the status-poll loop can wake on
(src/edge/poll.go:134-145): a ticker tick or the refresh channel. -/
inductive LoopSignal where
  | tick : LoopSignal
  | refresh : LoopSignal
deriving DecidableEq

/-- Result of one select round of the status-poll loop goroutine:
`continues` is whether the goroutine stays in its for-loop. -/
structure LoopIterOut where
  state : PollService
  effects : List Effect
  result : Except String Unit
  continues : Bool

/-- One select round of the status-poll loop goroutine
(src/edge/poll.go:132-147): on a tick, run `poll` and only log its error —
the loop always goes on; on the refresh signal, stop the ticker and exit. -/
def statusPollLoopIter (service : PollService) (sig : LoopSignal)
    (env : PollEnv) : LoopIterOut :=
  match sig with
  | .tick =>
    let out := poll service env
    ⟨out.state, out.effects, out.result, true⟩
  | .refresh => ⟨service, [], .ok (), false⟩

/-- Oracle for one activity-monitor tick: the instant `time.Now()` reports
(through `time.Since`) and the outcome `CloseTunnel` would return. -/
structure ActEnv where
  now : Int
  closeResult : Except String Unit

/-- Modelled from the spec: the chisel client is not under src; a successful
`CloseTunnel` leaves the tunnel reporting closed, and a nil client is left
untouched. -/
def setTunnelClosed (service : PollService) : PollService :=
  match service.tunnelClient with
  | some _ => { service with tunnelClient := some ⟨false⟩ }
  | none => service

/-- One tick of the activity-monitoring loop body (src/edge/poll.go:165-182):
skip while `lastActivity.IsZero()`; otherwise compute
`elapsed := time.Since(lastActivity)` and close the tunnel when the client
is non-nil, reports open, and `elapsed.Seconds()` exceeds
`inactivityTimeout.Seconds()`; a close failure is only logged. -/
def activityTick (service : PollService) (env : ActEnv) :
    PollService × List Effect :=
  if service.lastActivity = 0 then (service, [])
  else
    let elapsed := env.now - service.lastActivity
    if tunnelReportsOpen service = true ∧
        durationSeconds elapsed > durationSeconds service.inactivityTimeout
        then
      match env.closeResult with
      | .ok _ => (setTunnelClosed service, [Effect.closeTunnel])
      | .error _ => (service, [Effect.closeTunnel])
    else (service, [])

/-- A sequence of activity-monitor ticks, accumulating states and effects. -/
def activityTicks (service : PollService) :
    List ActEnv → PollService × List Effect
  | [] => (service, [])
  | env :: rest =>
    let fst := activityTick service env
    let snd := activityTicks fst.1 rest
    (snd.1, fst.2 ++ snd.2)

/-- Goroutine launches performed by the lifecycle operations. -/
inductive StartEffect where
  | startPollLoop : StartEffect
  | startActivityLoop : StartEffect
deriving DecidableEq

/-- Translation of `PollService.start` (src/edge/poll.go:102-112): a no-op
returning nil when `refreshSignal` is already non-nil; otherwise make a
fresh channel and launch the status-poll loop and the activity-monitoring
loop (the latter returns without launching anything when the tunnel client
is nil, src/edge/poll.go:153-155). -/
def start (service : PollService) :
    PollService × List StartEffect × Except String Unit :=
  if service.refreshSignal then (service, [], .ok ())
  else
    ({ service with refreshSignal := true },
      StartEffect.startPollLoop ::
        (match service.tunnelClient with
          | some _ => [StartEffect.startActivityLoop]
          | none => []),
      .ok ())

/-- Translation of `PollService.stop` (src/edge/poll.go:114-120): close the
refresh channel and nil it when non-nil, otherwise do nothing; always
returns nil. -/
def stop (service : PollService) : PollService × Except String Unit :=
  if service.refreshSignal then
    ({ service with refreshSignal := false }, .ok ())
  else (service, .ok ())

/-- Translation of `restartStatusPollLoop` (src/edge/poll.go:122-126):
`stop`, make a fresh refresh channel, relaunch only the status-poll loop. -/
def restartStatusPollLoop (service : PollService) :
    PollService × List StartEffect :=
  ({ (stop service).1 with refreshSignal := true },
    [StartEffect.startPollLoop])

/-- Operations that can mutate a `PollService`: the public lifecycle calls,
one iteration of either loop body, and the exposed activity-reset hook —
the HTTP layer calls `edgeManager.ResetActivityTimer()` on every edge-mode
request (`enhanceAPIForEdgeMode`, src/http/handler/browse/browse_delete.go
lines 124-135), which runs `PollService.resetActivityTimer` at the request
instant. -/
inductive Op where
  | startOp : Op
  | stopOp : Op
  | restartOp : Op
  | pollOp : PollEnv → Op
  | activityOp : ActEnv → Op
  | resetOp : Int → Op

/-- State transition of one service operation. -/
def applyOp (service : PollService) : Op → PollService
  | .startOp => (start service).1
  | .stopOp => (stop service).1
  | .restartOp => (restartStatusPollLoop service).1
  | .pollOp env => (poll service env).state
  | .activityOp env => (activityTick service env).1
  | .resetOp now => resetActivityTimer service now

/-- Whether an effect is one of the two tunnel-capability calls. -/
def isTunnelEffect : Effect → Bool
  | .closeTunnel => true
  | .createTunnel _ => true
  | _ => false

/-- Number of `SetTimeout` calls in a trace. -/
def countSetTimeout (es : List Effect) : Nat :=
  (es.filter fun e =>
    match e with
    | .setTimeout _ => true
    | _ => false).length

/-- Number of asynchronous poll-loop restarts triggered in a trace. -/
def countRestart (es : List Effect) : Nat :=
  (es.filter fun e =>
    match e with
    | .restartAsync => true
    | _ => false).length

/-- The arguments of the `UpdateStacksStatus` calls in a trace, in order. -/
def updateCalls (es : List Effect) : List (List (Int × Int)) :=
  es.filterMap fun e =>
    match e with
    | .updateStacks m => some m
    | _ => none

/-! Lemmas about the Go-map model used for the `stacks` mapping. -/

theorem lookupKey_mapSet (m : List (Int × Int)) (k v k' : Int) :
    lookupKey (mapSet m k v) k' =
      if k = k' then some v else lookupKey m k' := by
  induction m with
  | nil => simp [mapSet, lookupKey]
  | cons p rest ih =>
    by_cases hp : p.1 = k
    · by_cases hk : k = k'
      · subst hk; simp [mapSet, hp, lookupKey]
      · have hpk : ¬ p.1 = k' := fun h => hk (hp ▸ h)
        simp [mapSet, hp, lookupKey, hk, hpk]
    · by_cases hpk : p.1 = k'
      · have hk : ¬ k = k' := fun h => hp (h ▸ hpk)
        have hk2 : ¬ k' = k := fun h => hk h.symm
        simp [mapSet, hp, lookupKey, hpk, hk, hk2]
      · simp [mapSet, hp, lookupKey, hpk, ih]

theorem length_mapSet (m : List (Int × Int)) (k v : Int) :
    (mapSet m k v).length =
      if (lookupKey m k).isSome then m.length else m.length + 1 := by
  induction m with
  | nil => simp [mapSet, lookupKey]
  | cons p rest ih =>
    by_cases hp : p.1 = k
    · simp [mapSet, hp, lookupKey]
    · simp only [mapSet, hp, if_false, lookupKey, List.length_cons, ih]
      by_cases hs : (lookupKey rest k).isSome <;> simp [hp, hs]

theorem lookupKey_isSome_iff (m : List (Int × Int)) (k : Int) :
    (lookupKey m k).isSome ↔ k ∈ m.map Prod.fst := by
  induction m with
  | nil => simp [lookupKey]
  | cons p rest ih =>
    simp only [lookupKey, List.map_cons, List.mem_cons]
    by_cases hp : p.1 = k
    · simp [hp]
    · have hk : ¬ k = p.1 := fun h => hp h.symm
      simp [hp, hk, ih]

theorem keys_mapSet (m : List (Int × Int)) (k v : Int) :
    (mapSet m k v).map Prod.fst =
      if (lookupKey m k).isSome then m.map Prod.fst
      else m.map Prod.fst ++ [k] := by
  induction m with
  | nil => simp [mapSet, lookupKey]
  | cons p rest ih =>
    by_cases hp : p.1 = k
    · simp [mapSet, hp, lookupKey]
    · simp only [mapSet, hp, if_false, List.map_cons]
      rw [ih]
      simp only [lookupKey, hp, if_false]
      by_cases hs : (lookupKey rest k).isSome
      · simp [hs]
      · simp [hs]

theorem nodupKeys_mapSet (m : List (Int × Int)) (k v : Int)
    (h : (m.map Prod.fst).Nodup) : ((mapSet m k v).map Prod.fst).Nodup := by
  rw [keys_mapSet]
  by_cases hs : (lookupKey m k).isSome
  · simpa [hs] using h
  · have hk : k ∉ m.map Prod.fst := by
      rw [← lookupKey_isSome_iff]; simpa using hs
    simp [hs, List.nodup_append, h, hk]

theorem countKey_eq_zero (m : List (Int × Int)) (k : Int)
    (h : k ∉ m.map Prod.fst) : countKey m k = 0 := by
  induction m with
  | nil => simp [countKey]
  | cons p rest ih =>
    simp only [List.map_cons, List.mem_cons, not_or] at h
    have hp : (p.1 == k) = false := by
      simp only [beq_eq_false_iff_ne, ne_eq]
      exact fun hh => h.1 hh.symm
    simpa [countKey, List.filter_cons, hp] using ih h.2

theorem countKey_eq_one (m : List (Int × Int)) (k : Int)
    (hnd : (m.map Prod.fst).Nodup) (hmem : k ∈ m.map Prod.fst) :
    countKey m k = 1 := by
  induction m with
  | nil => simp at hmem
  | cons p rest ih =>
    simp only [List.map_cons, List.nodup_cons] at hnd
    simp only [List.map_cons, List.mem_cons] at hmem
    by_cases hp : p.1 = k
    · have hknot : k ∉ rest.map Prod.fst := by rw [← hp]; exact hnd.1
      have h0 : countKey rest k = 0 := countKey_eq_zero rest k hknot
      have hb : (p.1 == k) = true := by simp [hp]
      simp only [countKey, List.filter_cons, hb, if_true, List.length_cons]
      simp only [countKey] at h0
      omega
    · have hmem2 : k ∈ rest.map Prod.fst := by
        rcases hmem with h | h
        · exact absurd h.symm hp
        · exact h
      have hb : (p.1 == k) = false := by simp [hp]
      simp only [countKey, List.filter_cons, hb]
      simpa [countKey] using ih hnd.2 hmem2

/-! Lemmas about `stacksMap` and `lastVersion`. -/

theorem lookupKey_foldl (stackList : List StackStatus)
    (m : List (Int × Int)) (k : Int) :
    lookupKey (stackList.foldl (fun m s => mapSet m s.id s.version) m) k =
      match lastVersion stackList k with
      | some v => some v
      | none => lookupKey m k := by
  induction stackList generalizing m with
  | nil => simp [lastVersion]
  | cons s rest ih =>
    simp only [List.foldl_cons, ih, lastVersion, lookupKey_mapSet]
    cases h : lastVersion rest k with
    | some v => simp
    | none =>
      by_cases hs : s.id = k <;> simp [hs]

theorem lookupKey_stacksMap (stackList : List StackStatus) (k : Int) :
    lookupKey (stacksMap stackList) k = lastVersion stackList k := by
  rw [stacksMap, lookupKey_foldl]
  cases h : lastVersion stackList k <;> simp [lookupKey]

theorem length_foldl_le (stackList : List StackStatus)
    (m : List (Int × Int)) :
    (stackList.foldl (fun m s => mapSet m s.id s.version) m).length ≤
      m.length + stackList.length := by
  induction stackList generalizing m with
  | nil => simp
  | cons s rest ih =>
    calc (List.foldl (fun m s => mapSet m s.id s.version)
          (mapSet m s.id s.version) rest).length
        ≤ (mapSet m s.id s.version).length + rest.length := ih _
      _ ≤ (m.length + 1) + rest.length := by
          have h := length_mapSet m s.id s.version
          by_cases hs : (lookupKey m s.id).isSome
          · rw [h, if_pos hs]; omega
          · rw [h, if_neg hs]
      _ = m.length + (s :: rest).length := by
          simp only [List.length_cons]; omega

theorem nodupKeys_foldl (stackList : List StackStatus)
    (m : List (Int × Int)) (h : (m.map Prod.fst).Nodup) :
    ((stackList.foldl (fun m s => mapSet m s.id s.version) m).map
      Prod.fst).Nodup := by
  induction stackList generalizing m with
  | nil => simpa
  | cons s rest ih => exact ih _ (nodupKeys_mapSet _ _ _ h)

theorem nodupKeys_stacksMap (stackList : List StackStatus) :
    ((stacksMap stackList).map Prod.fst).Nodup :=
  nodupKeys_foldl stackList [] (by simp)

theorem length_stacksMap_le (stackList : List StackStatus) :
    (stacksMap stackList).length ≤ stackList.length := by
  simpa using length_foldl_le stackList []

theorem lastVersion_eq_none (stackList : List StackStatus) (k : Int)
    (h : ∀ c ∈ stackList, c.id ≠ k) : lastVersion stackList k = none := by
  induction stackList with
  | nil => simp [lastVersion]
  | cons s rest ih =>
    have hs : s.id ≠ k := h s (by simp)
    have hrest := ih fun c hc => h c (by simp [hc])
    simp [lastVersion, hrest, hs]

theorem lastVersion_isSome_of_mem (stackList : List StackStatus)
    (s : StackStatus) (hs : s ∈ stackList) :
    (lastVersion stackList s.id).isSome := by
  induction stackList with
  | nil => simp at hs
  | cons a rest ih =>
    rcases List.mem_cons.mp hs with h | h
    · cases hl : lastVersion rest s.id <;> simp [lastVersion, hl, ← h]
    · have := ih h
      cases hl : lastVersion rest s.id with
      | some v => simp [lastVersion, hl]
      | none => simp [hl] at this

theorem lastVersion_mem (stackList : List StackStatus) (k : Int) (v : Int)
    (h : lastVersion stackList k = some v) :
    ∃ c ∈ stackList, c.id = k ∧ c.version = v := by
  induction stackList with
  | nil => simp [lastVersion] at h
  | cons s rest ih =>
    cases hl : lastVersion rest k with
    | some w =>
      simp only [lastVersion, hl] at h
      obtain ⟨c, hc, hck, hcv⟩ := ih (by rw [hl, h])
      exact ⟨c, List.mem_cons_of_mem s hc, hck, hcv⟩
    | none =>
      simp only [lastVersion, hl] at h
      by_cases hs : s.id = k
      · rw [if_pos hs] at h
        refine ⟨s, by simp, hs, ?_⟩
        injection h
      · rw [if_neg hs] at h; cases h

theorem lastVersion_append (xs ys : List StackStatus) (k : Int) :
    lastVersion (xs ++ ys) k =
      match lastVersion ys k with
      | some v => some v
      | none => lastVersion xs k := by
  induction xs with
  | nil =>
    cases h : lastVersion ys k <;> simp [h, lastVersion]
  | cons s rest ih =>
    have hc : lastVersion ((s :: rest) ++ ys) k =
        match lastVersion (rest ++ ys) k with
        | some v => some v
        | none => if s.id = k then some s.version else none := rfl
    rw [hc, ih]
    cases h : lastVersion ys k with
    | some v => rfl
    | none => rfl

theorem length_stacksMap_lt (l₁ l₂ : List StackStatus) (a b : StackStatus)
    (ha : a ∈ l₁) (hid : a.id = b.id) :
    (stacksMap (l₁ ++ b :: l₂)).length < (l₁ ++ b :: l₂).length := by
  have hfold : stacksMap (l₁ ++ b :: l₂) =
      (b :: l₂).foldl (fun m s => mapSet m s.id s.version) (stacksMap l₁) := by
    simp [stacksMap, List.foldl_append]
  have hsome : (lookupKey (stacksMap l₁) b.id).isSome := by
    rw [lookupKey_stacksMap]
    have h := lastVersion_isSome_of_mem l₁ a ha
    rwa [hid] at h
  have hlen2 : (mapSet (stacksMap l₁) b.id b.version).length =
      (stacksMap l₁).length := by
    rw [length_mapSet, if_pos hsome]
  have hle : ((b :: l₂).foldl (fun m s => mapSet m s.id s.version)
      (stacksMap l₁)).length ≤ (stacksMap l₁).length + l₂.length := by
    have h := length_foldl_le l₂ (mapSet (stacksMap l₁) b.id b.version)
    simpa [List.foldl_cons, hlen2] using h
  have hl1 := length_stacksMap_le l₁
  rw [hfold]
  have hlen : (l₁ ++ b :: l₂).length = l₁.length + l₂.length + 1 := by
    simp [List.length_append, List.length_cons]
    omega
  rw [hlen]
  omega

/-! Helper facts about the effect traces of the tunnel steps. -/

theorem createTunnel_effects_tunnel (service : PollService) (env : PollEnv)
    (c : String) (p : Int) :
    ∀ e ∈ (createTunnel service env c p).effects, isTunnelEffect e = true := by
  rcases htc : service.tunnelClient with _ | t
  · simp [createTunnel, htc]
  · rcases hd : env.decodeResult with ed | dres
    · simp [createTunnel, htc, hd]
    · rcases hy : env.decryptResult with ey | yres
      · simp [createTunnel, htc, hd, hy]
      · rcases hc : env.createResult with ec | cres <;>
          simp [createTunnel, htc, hd, hy, hc, isTunnelEffect]

theorem idleClose_effects (service : PollService) (t : TunnelState)
    (resp : EnvironmentStatus) (env : PollEnv) :
    ∀ e ∈ (idleClose service t resp env).2, isTunnelEffect e = true := by
  unfold idleClose
  split
  · split <;> simp [isTunnelEffect]
  · simp

theorem idleClose_lastActivity (service : PollService) (t : TunnelState)
    (resp : EnvironmentStatus) (env : PollEnv) :
    (idleClose service t resp env).1.lastActivity =
      service.lastActivity := by
  unfold idleClose
  split
  · split <;> simp
  · simp

theorem idleClose_pollInterval (service : PollService) (t : TunnelState)
    (resp : EnvironmentStatus) (env : PollEnv) :
    (idleClose service t resp env).1.pollIntervalInSeconds =
      service.pollIntervalInSeconds := by
  unfold idleClose
  split
  · split <;> simp
  · simp

theorem tunnelPhase_effects_tunnel (service : PollService)
    (resp : EnvironmentStatus) (env : PollEnv) :
    ∀ e ∈ (tunnelPhase service resp env).effects,
      isTunnelEffect e = true := by
  rcases htc : service.tunnelClient with _ | t
  · simp [tunnelPhase, htc]
  · intro e he
    simp only [tunnelPhase, htc] at he
    split at he
    · simp only at he
      rcases List.mem_append.mp he with h | h
      · exact idleClose_effects service t resp env e h
      · exact createTunnel_effects_tunnel _ _ _ _ e h
    · simp only at he
      exact idleClose_effects service t resp env e he

theorem createTunnel_pollInterval (service : PollService) (env : PollEnv)
    (c : String) (p : Int) :
    (createTunnel service env c p).state.pollIntervalInSeconds =
      service.pollIntervalInSeconds := by
  rcases htc : service.tunnelClient with _ | t <;>
    rcases hd : env.decodeResult with ed | dres <;>
    rcases hy : env.decryptResult with ey | yres <;>
    rcases hc : env.createResult with ec | cres <;>
    simp [createTunnel, htc, hd, hy, hc, resetActivityTimer,
      tunnelReportsOpen]

theorem tunnelPhase_pollInterval (service : PollService)
    (resp : EnvironmentStatus) (env : PollEnv) :
    (tunnelPhase service resp env).state.pollIntervalInSeconds =
      service.pollIntervalInSeconds := by
  rcases htc : service.tunnelClient with _ | t
  · simp [tunnelPhase, htc]
  · simp only [tunnelPhase, htc]
    split
    · simp only [createTunnel_pollInterval]
      exact idleClose_pollInterval service t resp env
    · simp only
      exact idleClose_pollInterval service t resp env

/-! Trace-count helpers. -/

theorem countSetTimeout_of_tunnel (es : List Effect)
    (h : ∀ e ∈ es, isTunnelEffect e = true) : countSetTimeout es = 0 := by
  have hnil : es.filter (fun e =>
      match e with
      | Effect.setTimeout _ => true
      | _ => false) = [] := by
    rw [List.filter_eq_nil]
    intro e he
    have ht := h e he
    cases e <;> simp_all [isTunnelEffect]
  simp [countSetTimeout, hnil]

theorem countRestart_of_tunnel (es : List Effect)
    (h : ∀ e ∈ es, isTunnelEffect e = true) : countRestart es = 0 := by
  have hnil : es.filter (fun e =>
      match e with
      | Effect.restartAsync => true
      | _ => false) = [] := by
    rw [List.filter_eq_nil]
    intro e he
    have ht := h e he
    cases e <;> simp_all [isTunnelEffect]
  simp [countRestart, hnil]

theorem updateCalls_of_tunnel (es : List Effect)
    (h : ∀ e ∈ es, isTunnelEffect e = true) : updateCalls es = [] := by
  have hnil : es.filterMap (fun e =>
      match e with
      | Effect.updateStacks m => some m
      | _ => none) = ([] : List (List (Int × Int))) := by
    rw [List.filterMap_eq_nil]
    intro e he
    have ht := h e he
    cases e <;> simp_all [isTunnelEffect]
  simpa [updateCalls] using hnil

/-! Concrete values used to instantiate the claim theorems. -/

/-- Concrete service state: tunnel capability configured, tunnel closed,
no activity recorded, not running. -/
def demoService : PollService :=
  { apiServerAddr := "127.0.0.1:9001"
    pollIntervalInSeconds := 5
    inactivityTimeout := 30000000000
    edgeID := "edge-1"
    tunnelClient := some ⟨false⟩
    lastActivity := 0
    refreshSignal := false
    portainerURL := "https://portainer.example"
    endpointID := "1"
    tunnelServerAddr := "portainer.example:8000"
    tunnelServerFingerprint := "fp" }

/-- Concrete REQUIRED status response with no stacks and no schedules. -/
def demoRequiredResp : EnvironmentStatus :=
  { status := "REQUIRED"
    port := 9000
    credentials := "blob"
    checkinInterval := 0
    schedules := []
    «stacks» := none }

/-- Oracle where the status fetch fails. -/
def demoFetchFailEnv : PollEnv :=
  { fetchResult := .error "fetch failed"
    closeResult := .ok ()
    decodeResult := .ok []
    decryptResult := .ok "cred"
    createResult := .ok ()
    scheduleResult := .ok ()
    updateStacksResult := .ok ()
    now := 42 }

/-- Oracle where the fetch yields a REQUIRED status but the credential
base64 decode fails. -/
def demoDecodeFailEnv : PollEnv :=
  { fetchResult := .ok demoRequiredResp
    closeResult := .ok ()
    decodeResult := .error "illegal base64 data"
    decryptResult := .ok "cred"
    createResult := .ok ()
    scheduleResult := .ok ()
    updateStacksResult := .ok ()
    now := 42 }

/-! Claim theorems. -/

/-- C1: on a poll iteration whose response is REQUIRED while the tunnel is
closed, a failure at any tunnel-creation stage (base64 decode, decryption,
or the capability's create call — `createFailure env = some e`) makes `poll`
return exactly that error with the service state completely unchanged (so
the tunnel is still closed and `lastActivity` untouched), and every effect
of the iteration is a tunnel-capability call: no schedule, log-collection,
cadence or stack step ran. -/
theorem c1_required_create_failure_ends_iteration
    (s : PollService) (env : PollEnv) (resp : EnvironmentStatus)
    (t : TunnelState) (e : String)
    (htc : s.tunnelClient = some t) (hopen : t.isOpen = false)
    (hf : env.fetchResult = .ok resp) (hst : resp.status = "REQUIRED")
    (he : createFailure env = some e) :
    ∃ es, poll s env = ⟨s, es, .error e⟩ ∧ es.all isTunnelEffect = true := by
  rcases hd : env.decodeResult with ed | dres
  · have hee : ed = e := by simpa [createFailure, hd] using he
    subst hee
    refine ⟨[], ?_, by simp⟩
    simp [poll, hf, tunnelPhase, idleClose, htc, hst, hopen,
      tunnelReportsOpen, createTunnel, hd]
  · rcases hy : env.decryptResult with ey | yres
    · have hee : ey = e := by simpa [createFailure, hd, hy] using he
      subst hee
      refine ⟨[], ?_, by simp⟩
      simp [poll, hf, tunnelPhase, idleClose, htc, hst, hopen,
        tunnelReportsOpen, createTunnel, hd, hy]
    · rcases hc : env.createResult with ec | cres
      · have hee : ec = e := by simpa [createFailure, hd, hy, hc] using he
        subst hee
        refine ⟨[Effect.createTunnel
            { serverAddr := s.tunnelServerAddr
              serverFingerprint := s.tunnelServerFingerprint
              credentials := yres
              remotePort := toString resp.port
              localAddr := s.apiServerAddr }], ?_,
          by simp [isTunnelEffect]⟩
        simp [poll, hf, tunnelPhase, idleClose, htc, hst, hopen,
          tunnelReportsOpen, createTunnel, hd, hy, hc]
      · exact absurd he (by simp [createFailure, hd, hy, hc])

/-- C1 witness: the decode-failure case at concrete values. -/
theorem c1_required_create_failure_ends_iteration_witness :
    demoService.tunnelClient = some ⟨false⟩ ∧
    (TunnelState.mk false).isOpen = false ∧
    demoDecodeFailEnv.fetchResult = .ok demoRequiredResp ∧
    demoRequiredResp.status = "REQUIRED" ∧
    createFailure demoDecodeFailEnv = some "illegal base64 data" ∧
    ∃ es, poll demoService demoDecodeFailEnv =
        ⟨demoService, es, .error "illegal base64 data"⟩ ∧
      es.all isTunnelEffect = true :=
  ⟨rfl, rfl, rfl, rfl, rfl,
    c1_required_create_failure_ends_iteration demoService demoDecodeFailEnv
      demoRequiredResp ⟨false⟩ "illegal base64 data" rfl rfl rfl rfl rfl⟩

/-- C9: a poll iteration whose status fetch fails returns the fetch error at
once, with no state mutated and no collaborator effect; the surrounding loop
iteration only logs the error and keeps running (`continues = true`), so a
fetch failure never stops future polling. -/
theorem c9_fetch_failure_nonfatal (s : PollService) (env : PollEnv)
    (e : String) (hf : env.fetchResult = .error e) :
    poll s env = ⟨s, [], .error e⟩ ∧
      statusPollLoopIter s LoopSignal.tick env = ⟨s, [], .error e, true⟩ := by
  constructor <;> simp [poll, statusPollLoopIter, hf]

/-- C9 witness: a concrete failing fetch. -/
theorem c9_fetch_failure_nonfatal_witness :
    demoFetchFailEnv.fetchResult = .error "fetch failed" ∧
    (poll demoService demoFetchFailEnv = ⟨demoService, [], .error "fetch failed"⟩ ∧
      statusPollLoopIter demoService LoopSignal.tick demoFetchFailEnv =
        ⟨demoService, [], .error "fetch failed", true⟩) :=
  ⟨rfl, c9_fetch_failure_nonfatal demoService demoFetchFailEnv "fetch failed" rfl⟩

/-- Comparing two durations through `Duration.Seconds()` (division by 10^9)
is the same as comparing the nanosecond counts. -/
theorem durationSeconds_lt_iff (a b : Int) :
    durationSeconds a < durationSeconds b ↔ a < b := by
  unfold durationSeconds
  rw [div_lt_div_iff (by norm_num) (by norm_num),
    mul_lt_mul_right (by norm_num : (0 : ℚ) < 1000000000)]
  exact_mod_cast Iff.rfl

/-- C8: `start` while running is a no-op returning success, `stop` while not
running is a no-op returning success, and starting after a stop behaves
exactly like a first start on the never-started state — so at most one
status-poll loop is launched at a time. -/
theorem c8_start_stop_idempotent (s : PollService) :
    (s.refreshSignal = true → start s = (s, [], .ok ())) ∧
    (s.refreshSignal = false → stop s = (s, .ok ())) ∧
    start (stop s).1 = start { s with refreshSignal := false } := by
  refine ⟨fun h => by simp [start, h], fun h => by simp [stop, h], ?_⟩
  by_cases h : s.refreshSignal = true
  · simp [stop, h]
  · have hs : { s with refreshSignal := false } = s := by
      cases s
      simp_all
    simp [stop, h, hs]

/-- C8 witness: both no-op directions and the restart-equivalence at a
concrete state. -/
theorem c8_start_stop_idempotent_witness :
    ({ demoService with refreshSignal := true } :
        PollService).refreshSignal = true ∧
    demoService.refreshSignal = false ∧
    start { demoService with refreshSignal := true } =
      ({ demoService with refreshSignal := true }, [], .ok ()) ∧
    stop demoService = (demoService, .ok ()) ∧
    start (stop demoService).1 =
      start { demoService with refreshSignal := false } :=
  ⟨rfl, rfl,
    (c8_start_stop_idempotent { demoService with refreshSignal := true }).1 rfl,
    (c8_start_stop_idempotent demoService).2.1 rfl,
    (c8_start_stop_idempotent demoService).2.2⟩

/-- C7: the activity-monitoring loop body never invokes the tunnel
capability's create operation, and while `lastActivity` is the zero
sentinel any number of ticks leaves the state unchanged and performs no
effect at all (in particular no close attempt). -/
theorem c7_monitor_never_creates_zero_sentinel_skips :
    (∀ (s : PollService) (env : ActEnv) (cfg : TunnelConfig),
        Effect.createTunnel cfg ∉ (activityTick s env).2) ∧
    (∀ (s : PollService) (envs : List ActEnv),
        s.lastActivity = 0 → activityTicks s envs = (s, [])) := by
  constructor
  · intro s env cfg
    by_cases h0 : s.lastActivity = 0
    · simp [activityTick, h0]
    · simp only [activityTick, h0, if_false]
      by_cases hcond : tunnelReportsOpen s = true ∧
          durationSeconds (env.now - s.lastActivity) >
            durationSeconds s.inactivityTimeout
      · rcases hcl : env.closeResult with ec | cres <;> simp [hcond, hcl]
      · simp [hcond]
  · intro s envs h0
    induction envs with
    | nil => simp [activityTicks]
    | cons env rest ih =>
      have h1 : activityTick s env = (s, []) := by simp [activityTick, h0]
      simp [activityTicks, h1, ih]

/-- Configuration value used to instantiate the no-create part of C7. -/
def demoCfg : TunnelConfig :=
  { serverAddr := "portainer.example:8000"
    serverFingerprint := "fp"
    credentials := "cred"
    remotePort := "9000"
    localAddr := "127.0.0.1:9001" }

/-- Activity-monitor oracle for an early tick (elapsed below the
inactivity timeout of `demoOpenService`). -/
def demoEarlyTick : ActEnv :=
  { now := 20000000100
    closeResult := .ok () }

/-- Activity-monitor oracle for a late tick (elapsed above the inactivity
timeout of `demoOpenService`). -/
def demoLateTick : ActEnv :=
  { now := 30000000200
    closeResult := .ok () }

/-- Service state with an open tunnel and recorded activity at instant 100. -/
def demoOpenService : PollService :=
  { demoService with tunnelClient := some ⟨true⟩, lastActivity := 100 }

/-- C7 witness: no create effect on a closing tick, and two sentinel ticks
change nothing. -/
theorem c7_monitor_never_creates_zero_sentinel_skips_witness :
    demoService.lastActivity = 0 ∧
    Effect.createTunnel demoCfg ∉
      (activityTick demoOpenService demoLateTick).2 ∧
    activityTicks demoService [demoEarlyTick, demoLateTick] =
      (demoService, []) :=
  ⟨rfl,
    c7_monitor_never_creates_zero_sentinel_skips.1 demoOpenService
      demoLateTick demoCfg,
    c7_monitor_never_creates_zero_sentinel_skips.2 demoService
      [demoEarlyTick, demoLateTick] rfl⟩

/-- C6: on an activity-monitor tick with `lastActivity = T` (non-zero
sentinel), `inactivityTimeout = D` and the tunnel open, a tick whose elapsed
time is below `D` leaves the state unchanged and attempts no close, while a
tick whose elapsed time strictly exceeds `D` invokes the tunnel's close
operation. -/
theorem c6_inactivity_threshold (s : PollService) (env : ActEnv)
    (T D : Int) (hT : s.lastActivity = T) (hT0 : T ≠ 0)
    (hD : s.inactivityTimeout = D) (hopen : tunnelReportsOpen s = true) :
    (env.now - T < D → activityTick s env = (s, [])) ∧
    (env.now - T > D → (activityTick s env).2 = [Effect.closeTunnel]) := by
  subst hT
  subst hD
  constructor
  · intro hlt
    have hngt : ¬ (durationSeconds (env.now - s.lastActivity) >
        durationSeconds s.inactivityTimeout) := by
      rw [gt_iff_lt, durationSeconds_lt_iff]
      omega
    simp [activityTick, hT0, hopen, hngt]
  · intro hgt
    have hgt2 : durationSeconds (env.now - s.lastActivity) >
        durationSeconds s.inactivityTimeout := by
      rw [gt_iff_lt, durationSeconds_lt_iff]
      omega
    rcases hcl : env.closeResult with ec | cres <;>
      simp [activityTick, hT0, hopen, hgt2, hcl]

/-- C6 witness: with `T = 100` and `D = 30s`, the early tick leaves the
tunnel alone and the late tick closes it. -/
theorem c6_inactivity_threshold_witness :
    demoOpenService.lastActivity = 100 ∧ (100 : Int) ≠ 0 ∧
    demoOpenService.inactivityTimeout = 30000000000 ∧
    tunnelReportsOpen demoOpenService = true ∧
    demoEarlyTick.now - 100 < 30000000000 ∧
    demoLateTick.now - 100 > 30000000000 ∧
    activityTick demoOpenService demoEarlyTick = (demoOpenService, []) ∧
    (activityTick demoOpenService demoLateTick).2 = [Effect.closeTunnel] :=
  ⟨rfl, by decide, rfl, rfl, by decide, by decide,
    (c6_inactivity_threshold demoOpenService demoEarlyTick 100 30000000000
      rfl (by decide) rfl rfl).1 (by decide),
    (c6_inactivity_threshold demoOpenService demoLateTick 100 30000000000
      rfl (by decide) rfl rfl).2 (by decide)⟩

theorem countSetTimeout_append (xs ys : List Effect) :
    countSetTimeout (xs ++ ys) = countSetTimeout xs + countSetTimeout ys := by
  simp [countSetTimeout, List.filter_append]

theorem countRestart_append (xs ys : List Effect) :
    countRestart (xs ++ ys) = countRestart xs + countRestart ys := by
  simp [countRestart, List.filter_append]

theorem updateCalls_append (xs ys : List Effect) :
    updateCalls (xs ++ ys) = updateCalls xs ++ updateCalls ys := by
  simp [updateCalls, List.filterMap_append]

theorem countSetTimeout_nil : countSetTimeout [] = 0 := rfl

theorem countSetTimeout_cons (e : Effect) (es : List Effect) :
    countSetTimeout (e :: es) =
      (match e with
        | Effect.setTimeout _ => 1
        | _ => 0) + countSetTimeout es := by
  cases e <;> simp [countSetTimeout, List.filter_cons, Nat.add_comm]

theorem countRestart_nil : countRestart [] = 0 := rfl

theorem countRestart_cons (e : Effect) (es : List Effect) :
    countRestart (e :: es) =
      (match e with
        | Effect.restartAsync => 1
        | _ => 0) + countRestart es := by
  cases e <;> simp [countRestart, List.filter_cons, Nat.add_comm]

theorem updateCalls_nil : updateCalls [] = [] := rfl

theorem updateCalls_cons (e : Effect) (es : List Effect) :
    updateCalls (e :: es) =
      (match e with
        | Effect.updateStacks m => [m]
        | _ => []) ++ updateCalls es := by
  cases e <;> simp [updateCalls, List.filterMap_cons]

/-- C2: when a poll iteration reaches the cadence step (the fetch succeeded
and the tunnel phase did not abort the iteration), exactly when the
response's `checkinIntervalSeconds` is positive and differs from the current
`pollIntervalInSeconds` the iteration updates `pollIntervalInSeconds` to the
new value, calls `SetTimeout` on the status client exactly once, and
triggers exactly one asynchronous restart of the poll loop; an unchanged or
non-positive value triggers none of the three effects. -/
theorem c2_cadence_change_effects (s : PollService) (env : PollEnv)
    (resp : EnvironmentStatus)
    (hf : env.fetchResult = .ok resp)
    (hok : (tunnelPhase s resp env).result = .ok ()) :
    ((resp.checkinInterval > 0 ∧
        resp.checkinInterval ≠ s.pollIntervalInSeconds) →
      (poll s env).state.pollIntervalInSeconds = resp.checkinInterval ∧
      countSetTimeout (poll s env).effects = 1 ∧
      countRestart (poll s env).effects = 1) ∧
    (¬ (resp.checkinInterval > 0 ∧
        resp.checkinInterval ≠ s.pollIntervalInSeconds) →
      (poll s env).state.pollIntervalInSeconds = s.pollIntervalInSeconds ∧
      countSetTimeout (poll s env).effects = 0 ∧
      countRestart (poll s env).effects = 0) := by
  have hpi := tunnelPhase_pollInterval s resp env
  have htun := tunnelPhase_effects_tunnel s resp env
  rcases hout : tunnelPhase s resp env with ⟨ts, tes, tr⟩
  rw [hout] at hok hpi htun
  simp only at hok hpi htun
  have ht0 : countSetTimeout tes = 0 := countSetTimeout_of_tunnel tes htun
  have hr0 : countRestart tes = 0 := countRestart_of_tunnel tes htun
  subst hok
  constructor
  · intro hc
    have hc2 : resp.checkinInterval > 0 ∧
        resp.checkinInterval ≠ ts.pollIntervalInSeconds := by
      rw [hpi]; exact hc
    rcases hstk : resp.«stacks» with _ | sl <;>
      rcases hu : env.updateStacksResult with eu | uu <;>
      simp [poll, hf, hout, hstk, hu, hc2.1, hc2.2,
        countSetTimeout_append, countRestart_append, ht0, hr0,
        countSetTimeout_nil, countSetTimeout_cons,
        countRestart_nil, countRestart_cons]
  · intro hc
    have hc2 : ¬ (resp.checkinInterval > 0 ∧
        resp.checkinInterval ≠ ts.pollIntervalInSeconds) := by
      rw [hpi]; exact hc
    rcases hstk : resp.«stacks» with _ | sl <;>
      rcases hu : env.updateStacksResult with eu | uu <;>
      simp [poll, hf, hout, hstk, hu, hpi, hc,
        countSetTimeout_append, countRestart_append, ht0, hr0,
        countSetTimeout_nil, countSetTimeout_cons,
        countRestart_nil, countRestart_cons]

/-- Status response instructing a cadence change from 5s to 10s. -/
def demoCadenceResp : EnvironmentStatus :=
  { status := "IDLE"
    port := 0
    credentials := ""
    checkinInterval := 10
    schedules := []
    «stacks» := none }

/-- Oracle whose fetch returns the cadence-change response. -/
def demoCadenceEnv : PollEnv :=
  { fetchResult := .ok demoCadenceResp
    closeResult := .ok ()
    decodeResult := .ok []
    decryptResult := .ok ""
    createResult := .ok ()
    scheduleResult := .ok ()
    updateStacksResult := .ok ()
    now := 0 }

/-- C2 witness: the changed-cadence direction at concrete values. -/
theorem c2_cadence_change_effects_witness :
    demoCadenceEnv.fetchResult = .ok demoCadenceResp ∧
    (tunnelPhase demoService demoCadenceResp demoCadenceEnv).result =
      .ok () ∧
    (demoCadenceResp.checkinInterval > 0 ∧
      demoCadenceResp.checkinInterval ≠ demoService.pollIntervalInSeconds) ∧
    ((poll demoService demoCadenceEnv).state.pollIntervalInSeconds =
        demoCadenceResp.checkinInterval ∧
      countSetTimeout (poll demoService demoCadenceEnv).effects = 1 ∧
      countRestart (poll demoService demoCadenceEnv).effects = 1) :=
  ⟨rfl, rfl, ⟨by decide, by decide⟩,
    (c2_cadence_change_effects demoService demoCadenceEnv demoCadenceResp
      rfl rfl).1 ⟨by decide, by decide⟩⟩

/-- Shared helper: the `UpdateStacksStatus` calls a poll iteration performs,
once the iteration reaches the stack step: none on a nil stacks field,
exactly one with `stacksMap sl` on a present list `sl`. -/
theorem poll_updateCalls (s : PollService) (env : PollEnv)
    (resp : EnvironmentStatus)
    (hf : env.fetchResult = .ok resp)
    (hok : (tunnelPhase s resp env).result = .ok ()) :
    (resp.«stacks» = none → updateCalls (poll s env).effects = []) ∧
    (∀ sl, resp.«stacks» = some sl →
      updateCalls (poll s env).effects = [stacksMap sl]) := by
  have htun := tunnelPhase_effects_tunnel s resp env
  rcases hout : tunnelPhase s resp env with ⟨ts, tes, tr⟩
  rw [hout] at hok htun
  simp only at hok htun
  subst hok
  have hu0 : updateCalls tes = [] := updateCalls_of_tunnel tes htun
  constructor
  · intro hstk
    by_cases hcad : resp.checkinInterval > 0 ∧
        resp.checkinInterval ≠ ts.pollIntervalInSeconds <;>
      simp [poll, hf, hout, hstk, hcad, updateCalls_append, hu0,
        updateCalls_nil, updateCalls_cons]
  · intro sl hstk
    rcases hu : env.updateStacksResult with eu | uu <;>
      by_cases hcad : resp.checkinInterval > 0 ∧
        resp.checkinInterval ≠ ts.pollIntervalInSeconds <;>
      simp [poll, hf, hout, hstk, hu, hcad, updateCalls_append, hu0,
        updateCalls_nil, updateCalls_cons]

/-- C5: when a poll iteration reaches the stack step, a nil stacks field
performs no call to the stack-status updater; a present-but-empty list
performs exactly one call carrying the empty mapping; and a present
non-empty list performs exactly one call whose mapping binds every listed
stack id to the version of a listed entry with that id (the last one with
that id, see C10). -/
theorem c5_stacks_nil_vs_empty (s : PollService) (env : PollEnv)
    (resp : EnvironmentStatus)
    (hf : env.fetchResult = .ok resp)
    (hok : (tunnelPhase s resp env).result = .ok ()) :
    (resp.«stacks» = none → updateCalls (poll s env).effects = []) ∧
    (resp.«stacks» = some [] →
      updateCalls (poll s env).effects = [[]]) ∧
    (∀ sl, resp.«stacks» = some sl →
      updateCalls (poll s env).effects = [stacksMap sl] ∧
      ∀ st ∈ sl, ∃ v, lookupKey (stacksMap sl) st.id = some v ∧
        ∃ st2 ∈ sl, st2.id = st.id ∧ st2.version = v) := by
  obtain ⟨hnone, hsome⟩ := poll_updateCalls s env resp hf hok
  refine ⟨hnone, ?_, ?_⟩
  · intro hstk
    simpa [stacksMap] using hsome [] hstk
  · intro sl hstk
    refine ⟨hsome sl hstk, ?_⟩
    intro st hst
    obtain ⟨v, hv⟩ :=
      Option.isSome_iff_exists.mp (lastVersion_isSome_of_mem sl st hst)
    refine ⟨v, ?_, ?_⟩
    · rw [lookupKey_stacksMap, hv]
    · exact lastVersion_mem sl st.id v hv

/-- Status response carrying a present, non-empty stack list. -/
def demoStackList : List StackStatus := [⟨1, 3⟩, ⟨2, 4⟩]

/-- Status response with two stacks and no other activity. -/
def demoStacksResp : EnvironmentStatus :=
  { status := "IDLE"
    port := 0
    credentials := ""
    checkinInterval := 0
    schedules := []
    «stacks» := some demoStackList }

/-- Oracle whose fetch returns the two-stack response. -/
def demoStacksEnv : PollEnv :=
  { fetchResult := .ok demoStacksResp
    closeResult := .ok ()
    decodeResult := .ok []
    decryptResult := .ok ""
    createResult := .ok ()
    scheduleResult := .ok ()
    updateStacksResult := .ok ()
    now := 0 }

/-- C5 witness: the nil case and the present-list case at concrete values. -/
theorem c5_stacks_nil_vs_empty_witness :
    demoCadenceEnv.fetchResult = .ok demoCadenceResp ∧
    (tunnelPhase demoService demoCadenceResp demoCadenceEnv).result =
      .ok () ∧
    demoCadenceResp.«stacks» = none ∧
    updateCalls (poll demoService demoCadenceEnv).effects = [] ∧
    demoStacksEnv.fetchResult = .ok demoStacksResp ∧
    (tunnelPhase demoService demoStacksResp demoStacksEnv).result =
      .ok () ∧
    demoStacksResp.«stacks» = some demoStackList ∧
    updateCalls (poll demoService demoStacksEnv).effects =
      [stacksMap demoStackList] :=
  ⟨rfl, rfl, rfl,
    (c5_stacks_nil_vs_empty demoService demoCadenceEnv demoCadenceResp
      rfl rfl).1 rfl,
    rfl, rfl, rfl,
    ((c5_stacks_nil_vs_empty demoService demoStacksEnv demoStacksResp
      rfl rfl).2.2 demoStackList rfl).1⟩

/-- C10: when the response's stack list contains two entries with the same
id — an earlier entry `a` and a later entry `b`, `b` being the last entry
with that id — the mapping handed to the stack-status updater binds that id
exactly once, to the version of the later entry, and so has strictly fewer
entries than the list. -/
theorem c10_duplicate_stack_ids_last_wins (s : PollService) (env : PollEnv)
    (resp : EnvironmentStatus) (l₁ l₂ : List StackStatus)
    (a b : StackStatus)
    (hf : env.fetchResult = .ok resp)
    (hok : (tunnelPhase s resp env).result = .ok ())
    (hstk : resp.«stacks» = some (l₁ ++ b :: l₂))
    (ha : a ∈ l₁) (hid : a.id = b.id)
    (hlast : ∀ c ∈ l₂, c.id ≠ b.id) :
    updateCalls (poll s env).effects = [stacksMap (l₁ ++ b :: l₂)] ∧
    countKey (stacksMap (l₁ ++ b :: l₂)) b.id = 1 ∧
    lookupKey (stacksMap (l₁ ++ b :: l₂)) b.id = some b.version ∧
    (stacksMap (l₁ ++ b :: l₂)).length < (l₁ ++ b :: l₂).length := by
  refine ⟨(poll_updateCalls s env resp hf hok).2 _ hstk, ?_, ?_, ?_⟩
  · have hb : b ∈ l₁ ++ b :: l₂ := by simp
    have hsome := lastVersion_isSome_of_mem (l₁ ++ b :: l₂) b hb
    rw [← lookupKey_stacksMap] at hsome
    exact countKey_eq_one _ _ (nodupKeys_stacksMap _)
      ((lookupKey_isSome_iff _ _).mp hsome)
  · have h2 : lastVersion l₂ b.id = none := lastVersion_eq_none l₂ b.id hlast
    have h3 : lastVersion (b :: l₂) b.id = some b.version := by
      simp [lastVersion, h2]
    rw [lookupKey_stacksMap, lastVersion_append, h3]
  · exact length_stacksMap_lt l₁ l₂ a b ha hid

/-- First two stack entries of the duplicated-id demo list. -/
def demoDupPrefix : List StackStatus := [⟨7, 1⟩, ⟨8, 5⟩]

/-- Later stack entry repeating id 7 with version 2. -/
def demoDupLast : StackStatus := ⟨7, 2⟩

/-- Stack list with a duplicated id 7: the later entry carries version 2. -/
def demoDupResp : EnvironmentStatus :=
  { status := "IDLE"
    port := 0
    credentials := ""
    checkinInterval := 0
    schedules := []
    «stacks» := some (demoDupPrefix ++ demoDupLast :: []) }

/-- Oracle whose fetch returns the duplicated-id response. -/
def demoDupEnv : PollEnv :=
  { fetchResult := .ok demoDupResp
    closeResult := .ok ()
    decodeResult := .ok []
    decryptResult := .ok ""
    createResult := .ok ()
    scheduleResult := .ok ()
    updateStacksResult := .ok ()
    now := 0 }

/-- C10 witness: id 7 appears twice; the mapping holds it once with
version 2 and has two entries for a three-entry list. -/
theorem c10_duplicate_stack_ids_last_wins_witness :
    demoDupEnv.fetchResult = .ok demoDupResp ∧
    (tunnelPhase demoService demoDupResp demoDupEnv).result = .ok () ∧
    demoDupResp.«stacks» = some (demoDupPrefix ++ demoDupLast :: []) ∧
    (⟨7, 1⟩ : StackStatus) ∈ demoDupPrefix ∧
    (StackStatus.mk 7 1).id = demoDupLast.id ∧
    (updateCalls (poll demoService demoDupEnv).effects =
        [stacksMap (demoDupPrefix ++ demoDupLast :: [])] ∧
      countKey (stacksMap (demoDupPrefix ++ demoDupLast :: []))
        demoDupLast.id = 1 ∧
      lookupKey (stacksMap (demoDupPrefix ++ demoDupLast :: []))
        demoDupLast.id = some demoDupLast.version ∧
      (stacksMap (demoDupPrefix ++ demoDupLast :: [])).length <
        (demoDupPrefix ++ demoDupLast :: []).length) :=
  ⟨rfl, rfl, rfl, by decide, rfl,
    c10_duplicate_stack_ids_last_wins demoService demoDupEnv demoDupResp
      demoDupPrefix [] ⟨7, 1⟩ demoDupLast rfl rfl rfl (by decide) rfl
      (by simp)⟩

/-! Where `lastActivity` can change. -/

theorem activityTick_lastActivity (service : PollService) (env : ActEnv) :
    (activityTick service env).1.lastActivity = service.lastActivity := by
  unfold activityTick
  by_cases h0 : service.lastActivity = 0
  · simp [h0]
  · simp only [h0, if_false]
    by_cases hcond : tunnelReportsOpen service = true ∧
        durationSeconds (env.now - service.lastActivity) >
          durationSeconds service.inactivityTimeout
    · rcases hcl : env.closeResult with ec | cres <;>
        rcases htc : service.tunnelClient with _ | t <;>
        simp [hcond, hcl, setTunnelClosed, htc]
    · simp [hcond]

theorem createTunnel_lastActivity_change (service : PollService)
    (env : PollEnv) (c : String) (p : Int)
    (hne : (createTunnel service env c p).state.lastActivity ≠
      service.lastActivity) :
    tunnelReportsOpen (createTunnel service env c p).state = true ∧
    env.createResult = .ok () ∧
    (createTunnel service env c p).state.lastActivity = env.now := by
  rcases htc : service.tunnelClient with _ | t
  · exact absurd (by simp [createTunnel, htc]) hne
  · rcases hd : env.decodeResult with ed | dres
    · exact absurd (by simp [createTunnel, htc, hd]) hne
    · rcases hy : env.decryptResult with ey | yres
      · exact absurd (by simp [createTunnel, htc, hd, hy]) hne
      · rcases hc : env.createResult with ec | cres
        · exact absurd (by simp [createTunnel, htc, hd, hy, hc]) hne
        · cases cres
          refine ⟨?_, rfl, ?_⟩ <;>
            simp [createTunnel, htc, hd, hy, hc, resetActivityTimer,
              tunnelReportsOpen]

theorem tunnelPhase_lastActivity_change (service : PollService)
    (resp : EnvironmentStatus) (env : PollEnv)
    (hne : (tunnelPhase service resp env).state.lastActivity ≠
      service.lastActivity) :
    tunnelReportsOpen (tunnelPhase service resp env).state = true ∧
    env.createResult = .ok () ∧
    (tunnelPhase service resp env).state.lastActivity = env.now := by
  rcases htc : service.tunnelClient with _ | t
  · exact absurd (by simp [tunnelPhase, htc]) hne
  · simp only [tunnelPhase, htc] at hne ⊢
    split at hne
    · rename_i hcond
      rw [if_pos hcond]
      simp only at hne ⊢
      have hbase : (createTunnel (idleClose service t resp env).1 env
          resp.credentials resp.port).state.lastActivity ≠
          (idleClose service t resp env).1.lastActivity := by
        rw [idleClose_lastActivity]
        exact hne
      have h := createTunnel_lastActivity_change
        (idleClose service t resp env).1 env resp.credentials resp.port hbase
      exact h
    · rename_i hcond
      rw [if_neg hcond]
      simp only at hne
      exact absurd (idleClose_lastActivity service t resp env) hne

theorem poll_lastActivity_change (s : PollService) (env : PollEnv)
    (hne : (poll s env).state.lastActivity ≠ s.lastActivity) :
    tunnelReportsOpen (poll s env).state = true ∧
    env.createResult = .ok () ∧
    (poll s env).state.lastActivity = env.now := by
  rcases hf : env.fetchResult with e | resp
  · exact absurd (by simp [poll, hf]) hne
  · have htp := tunnelPhase_lastActivity_change s resp env
    rcases hout : tunnelPhase s resp env with ⟨ts, tes, tr⟩
    rw [hout] at htp
    simp only at htp
    rcases htr : tr with e2 | u
    · have hstate : (poll s env).state = ts := by
        simp [poll, hf, hout, htr]
      rw [hstate] at hne ⊢
      exact htp hne
    · cases u
      have hstate : (poll s env).state.lastActivity = ts.lastActivity ∧
          tunnelReportsOpen (poll s env).state = tunnelReportsOpen ts := by
        rcases hstk : resp.«stacks» with _ | sl <;>
          rcases hu : env.updateStacksResult with eu | uu <;>
          by_cases hcad : resp.checkinInterval > 0 ∧
            resp.checkinInterval ≠ ts.pollIntervalInSeconds <;>
          simp [poll, hf, hout, htr, hstk, hu, hcad, tunnelReportsOpen]
      rw [hstate.1] at hne ⊢
      obtain ⟨h1, h2, h3⟩ := htp hne
      exact ⟨hstate.2.trans h1, h2, h3⟩

/-- C4 counterexample: the tunnel-creation sequence is not the only path
that sets `lastActivity`. The exposed activity-reset hook — invoked by the
HTTP layer on every edge-mode request
(src/http/handler/browse/browse_delete.go:131) — changes `lastActivity` on
an open tunnel, and that operation is not a poll iteration, so no
`createTunnel` sequence ran. -/
theorem c4_activity_reset_hook_counterexample :
    (applyOp demoOpenService (Op.resetOp 42)).lastActivity ≠
      demoOpenService.lastActivity ∧
    ¬ ∃ env, Op.resetOp 42 = Op.pollOp env :=
  ⟨by decide, by rintro ⟨env, heq⟩; cases heq⟩

/-- C4 amended: across every operation of the service — `start`, `stop`,
the loop restart, a poll iteration, an activity-monitor tick, the exposed
activity-reset hook — whenever `lastActivity` is assigned the tunnel client
is non-nil and reports the tunnel open, and the only paths that set it are
the tunnel-creation sequence of a poll whose capability create call
succeeded (new value: the creation instant) and the activity-reset hook
(new value: the request instant, accepted only while the tunnel reports
open). -/
theorem c4_lastActivity_set_only_with_open_tunnel (s : PollService)
    (op : Op) (hne : (applyOp s op).lastActivity ≠ s.lastActivity) :
    tunnelReportsOpen (applyOp s op) = true ∧
    ((∃ env, op = Op.pollOp env ∧ env.createResult = .ok () ∧
        (applyOp s op).lastActivity = env.now) ∨
      (∃ now, op = Op.resetOp now ∧ tunnelReportsOpen s = true ∧
        (applyOp s op).lastActivity = now)) := by
  cases op with
  | startOp =>
    refine absurd ?_ hne
    by_cases h : s.refreshSignal = true <;> simp [applyOp, start, h]
  | stopOp =>
    refine absurd ?_ hne
    by_cases h : s.refreshSignal = true <;> simp [applyOp, stop, h]
  | restartOp =>
    refine absurd ?_ hne
    by_cases h : s.refreshSignal = true <;>
      simp [applyOp, restartStatusPollLoop, stop, h]
  | pollOp env =>
    simp only [applyOp] at hne ⊢
    obtain ⟨h1, h2, h3⟩ := poll_lastActivity_change s env hne
    exact ⟨h1, Or.inl ⟨env, rfl, h2, h3⟩⟩
  | activityOp env =>
    exact absurd (activityTick_lastActivity s env) hne
  | resetOp now =>
    simp only [applyOp] at hne ⊢
    by_cases h : tunnelReportsOpen s = true
    · have hstate : resetActivityTimer s now =
          { s with lastActivity := now } := by
        simp [resetActivityTimer, h]
      rw [hstate]
      exact ⟨h, Or.inr ⟨now, rfl, h, rfl⟩⟩
    · exact absurd (by simp [resetActivityTimer, h]) hne

/-- Oracle for a poll iteration that successfully creates the tunnel at
instant 42. -/
def demoCreateEnv : PollEnv :=
  { fetchResult := .ok demoRequiredResp
    closeResult := .ok ()
    decodeResult := .ok [1, 2]
    decryptResult := .ok "cred"
    createResult := .ok ()
    scheduleResult := .ok ()
    updateStacksResult := .ok ()
    now := 42 }

/-- C4 amended witness: the activity-reset hook on an open tunnel moves
`lastActivity` to the request instant through the reset path, and a
successful REQUIRED poll moves it to the creation instant through the
create path. -/
theorem c4_lastActivity_set_only_with_open_tunnel_witness :
    (applyOp demoOpenService (Op.resetOp 42)).lastActivity ≠
      demoOpenService.lastActivity ∧
    (tunnelReportsOpen (applyOp demoOpenService (Op.resetOp 42)) = true ∧
      ((∃ env, Op.resetOp 42 = Op.pollOp env ∧
          env.createResult = .ok () ∧
          (applyOp demoOpenService (Op.resetOp 42)).lastActivity =
            env.now) ∨
        (∃ now, Op.resetOp 42 = Op.resetOp now ∧
          tunnelReportsOpen demoOpenService = true ∧
          (applyOp demoOpenService (Op.resetOp 42)).lastActivity =
            now))) ∧
    (applyOp demoService (Op.pollOp demoCreateEnv)).lastActivity ≠
      demoService.lastActivity ∧
    (tunnelReportsOpen (applyOp demoService (Op.pollOp demoCreateEnv)) =
        true ∧
      ((∃ env, Op.pollOp demoCreateEnv = Op.pollOp env ∧
          env.createResult = .ok () ∧
          (applyOp demoService (Op.pollOp demoCreateEnv)).lastActivity =
            env.now) ∨
        (∃ now, Op.pollOp demoCreateEnv = Op.resetOp now ∧
          tunnelReportsOpen demoService = true ∧
          (applyOp demoService (Op.pollOp demoCreateEnv)).lastActivity =
            now))) :=
  ⟨by decide,
    c4_lastActivity_set_only_with_open_tunnel demoOpenService
      (Op.resetOp 42) (by decide),
    by decide,
    c4_lastActivity_set_only_with_open_tunnel demoService
      (Op.pollOp demoCreateEnv) (by decide)⟩

/-! Cadence truncation (C3). -/

/-- The Go conversion `time.Duration(q) * time.Second` reproduces `q`
seconds exactly when `q` is a whole number of seconds. -/
theorem goSecondsDuration_eq_iff (q : ℚ) :
    ((goSecondsDuration q : ℚ) = q * 1000000000) ↔ ∃ n : ℤ, q = n := by
  unfold goSecondsDuration
  constructor
  · intro h
    push_cast at h
    have h2 : ((Int.tdiv q.num (q.den : ℤ) : ℤ) : ℚ) = q :=
      mul_right_cancel₀ (by norm_num : (1000000000 : ℚ) ≠ 0) h
    exact ⟨Int.tdiv q.num (q.den : ℤ), h2.symm⟩
  · rintro ⟨n, rfl⟩
    rw [Rat.num_intCast, Rat.den_intCast, Nat.cast_one, Int.tdiv_one n]
    push_cast
    ring

/-- Service state whose poll cadence is the fractional value 1.5 seconds. -/
def demoFractionalService : PollService :=
  { demoService with pollIntervalInSeconds := mkRat 3 2 }

/-- C3 counterexample: with `pollIntervalSeconds = 1.5`, the ticker period
computed by `startStatusPollLoop` is 10^9 ns = 1 second, not 1.5 seconds —
`time.Duration(f)` truncates the float to an integer before the `*
time.Second` scaling — so the claim fails for fractional cadences. -/
theorem c3_fractional_interval_counterexample :
    demoFractionalService.pollIntervalInSeconds = mkRat 3 2 ∧
    0 < demoFractionalService.pollIntervalInSeconds ∧
    tickerPeriodNs demoFractionalService = 1000000000 ∧
    (tickerPeriodNs demoFractionalService : ℚ) ≠
      demoFractionalService.pollIntervalInSeconds * 1000000000 := by
  refine ⟨rfl, by decide, by decide, ?_⟩
  have h1 : tickerPeriodNs demoFractionalService = 1000000000 := by decide
  have h2 : demoFractionalService.pollIntervalInSeconds = mkRat 3 2 := rfl
  rw [h1, h2, Rat.mkRat_eq_div]
  push_cast
  norm_num

/-- C3 amended: the poll-loop ticker period and the `SetTimeout` value are
the truncation toward zero of the float second counts scaled to
nanoseconds; each equals the nominal float value exactly when that value is
a whole number of seconds (a fractional cadence such as 1.5 is truncated to
1 second, and a value below 1 second truncates to a zero — invalid — ticker
period). -/
theorem c3_interval_truncation (s : PollService) (env : PollEnv)
    (resp : EnvironmentStatus)
    (hf : env.fetchResult = .ok resp)
    (hok : (tunnelPhase s resp env).result = .ok ())
    (hchange : resp.checkinInterval > 0 ∧
      resp.checkinInterval ≠ s.pollIntervalInSeconds) :
    (((tickerPeriodNs s : ℚ) = s.pollIntervalInSeconds * 1000000000) ↔
      ∃ n : ℤ, s.pollIntervalInSeconds = n) ∧
    Effect.setTimeout (goSecondsDuration resp.checkinInterval) ∈
      (poll s env).effects ∧
    (((goSecondsDuration resp.checkinInterval : ℚ) =
        resp.checkinInterval * 1000000000) ↔
      ∃ n : ℤ, resp.checkinInterval = n) := by
  refine ⟨by simpa [tickerPeriodNs] using
      goSecondsDuration_eq_iff s.pollIntervalInSeconds, ?_,
    goSecondsDuration_eq_iff resp.checkinInterval⟩
  have hpi := tunnelPhase_pollInterval s resp env
  rcases hout : tunnelPhase s resp env with ⟨ts, tes, tr⟩
  rw [hout] at hok hpi
  simp only at hok hpi
  subst hok
  have hc2 : resp.checkinInterval > 0 ∧
      resp.checkinInterval ≠ ts.pollIntervalInSeconds := by
    rw [hpi]; exact hchange
  rcases hstk : resp.«stacks» with _ | sl <;>
    rcases hu : env.updateStacksResult with eu | uu <;>
    simp [poll, hf, hout, hstk, hu, hc2.1, hc2.2]

/-- C3 amended witness: at the whole-second cadences 5 and 10 the computed
durations match the nominal values, and the `SetTimeout` effect carries the
truncated checkin interval. -/
theorem c3_interval_truncation_witness :
    demoCadenceEnv.fetchResult = .ok demoCadenceResp ∧
    (tunnelPhase demoService demoCadenceResp demoCadenceEnv).result =
      .ok () ∧
    (demoCadenceResp.checkinInterval > 0 ∧
      demoCadenceResp.checkinInterval ≠
        demoService.pollIntervalInSeconds) ∧
    ((((tickerPeriodNs demoService : ℚ) =
        demoService.pollIntervalInSeconds * 1000000000) ↔
      ∃ n : ℤ, demoService.pollIntervalInSeconds = n) ∧
    Effect.setTimeout (goSecondsDuration demoCadenceResp.checkinInterval) ∈
      (poll demoService demoCadenceEnv).effects ∧
    (((goSecondsDuration demoCadenceResp.checkinInterval : ℚ) =
        demoCadenceResp.checkinInterval * 1000000000) ↔
      ∃ n : ℤ, demoCadenceResp.checkinInterval = n)) :=
  ⟨rfl, rfl, ⟨by decide, by decide⟩,
    c3_interval_truncation demoService demoCadenceEnv demoCadenceResp rfl
      rfl ⟨by decide, by decide⟩⟩

end PortainerEdge
